import Mathlib

/-!
Shallow embedding of the query model and SQL-fragment generation of the
tesseract OLAP engine (crates tesseract-core, files src/query.rs and
src/query_ir.rs), together with theorems checking the natural-language
specification against it.

Rust strings are modelled as Lean `String`; Rust `Vec<T>` as `List T`;
`Option<T>` as `Option T`; `Result<T, Error>` as `Except String T`.
Machine integers `u64` / `i64` are modelled as `Nat` / `Int` with explicit
range checks where the Rust standard-library parsers enforce them.
-/

/-- Rust `str::split(sep)` on a single-character separator, at the level of
character lists: splitting the empty list yields one empty piece, matching
Rust semantics where splitting an empty string yields one empty field. -/
def splitCh (sep : Char) : List Char → List (List Char)
  | [] => [[]]
  | c :: rest =>
    let r := splitCh sep rest
    if c = sep then
      [] :: r
    else
      match r with
      | [] => [[c]]
      | h :: t => (c :: h) :: t

/-- Rust `str::split(sep)` lifted to `String`, for a one-character separator
(the source only splits on "," and "."). -/
def rsplit (sep : Char) (s : String) : List String :=
  (splitCh sep s.data).map (fun l => String.mk l)

/-- itertools `join(iter, sep)`: pieces interleaved with the separator. -/
def joinSep (sep : String) : List String → String
  | [] => ""
  | [x] => x
  | x :: xs => x ++ sep ++ joinSep sep xs

/-- ASCII lowering of one character, modelling what Rust
`str::to_lowercase` does on the ASCII tokens the source compares. -/
def lowerChar (c : Char) : Char :=
  if 'A' ≤ c ∧ c ≤ 'Z' then Char.ofNat (c.toNat + 32) else c

/-- Rust `str::to_lowercase`, restricted to the ASCII behaviour the
source relies on ("rca" / "growth" keyword comparison). -/
def lowerStr (s : String) : String :=
  String.mk (s.data.map lowerChar)

/-- Numeric value of an ASCII digit. -/
def digitVal (c : Char) : Option Nat :=
  if '0' ≤ c ∧ c ≤ '9' then some (c.toNat - 48) else none

/-- Accumulating decimal parser over a digit list; fails on any non-digit. -/
def parseDigitsAux : List Char → Nat → Option Nat
  | [], acc => some acc
  | c :: rest, acc =>
    match digitVal c with
    | some d => parseDigitsAux rest (acc * 10 + d)
    | none => none

/-- Parse a non-empty list of decimal digits. -/
def parseDigits : List Char → Option Nat
  | [] => none
  | l => parseDigitsAux l 0

/-- Rust `u64::from_str`: optional leading '+', one or more ASCII digits,
value must fit in 64 unsigned bits. -/
def parseU64 (s : String) : Option Nat :=
  let l := match s.data with
    | '+' :: rest => rest
    | l => l
  match parseDigits l with
  | some v => if v < 2 ^ 64 then some v else none
  | none => none

/-- Rust `i64::from_str`: optional leading '+' or '-', one or more ASCII
digits, value must fit in 64 signed bits. -/
def parseI64 (s : String) : Option Int :=
  match s.data with
  | '+' :: rest =>
    match parseDigits rest with
    | some v => if v < 2 ^ 63 then some (Int.ofNat v) else none
    | none => none
  | '-' :: rest =>
    match parseDigits rest with
    | some v => if v ≤ 2 ^ 63 then some (-(Int.ofNat v)) else none
    | none => none
  | l =>
    match parseDigits l with
    | some v => if v < 2 ^ 63 then some (Int.ofNat v) else none
    | none => none

/-!
Names and identifiers (src/tesseract-core/src/names.rs is not included in
the sources at hand; the types and parsers below are modelled from the
spec's grammar table, section 4.1).
-/

/-- Modelled from the spec: the include/exclude mask on a cut's member set
(names.rs is absent from the provided sources). -/
inductive Mask
  | Include
  | Exclude
deriving DecidableEq, Repr

/-- Modelled from the spec: a level name, canonical dotted form
Dim.Hier.Lvl (names.rs is absent from the provided sources). -/
structure LevelName where
  dimension : String
  hierarchy : String
  level : String
deriving DecidableEq, Repr

/-- Modelled from the spec: LevelName grammar is Dim.Hier.Lvl or Dim.Lvl;
the two-segment form implies default hierarchy = dimension name. -/
def LevelName.fromStr (s : String) : Except String LevelName :=
  match rsplit '.' s with
  | [d, l] => Except.ok ⟨d, d, l⟩
  | [d, h, l] => Except.ok ⟨d, h, l⟩
  | _ => Except.error ("Malformed level name")

/-- Modelled from the spec: a drilldown has the same grammar as a level
name (names.rs is absent from the provided sources). -/
structure Drilldown where
  level_name : LevelName
deriving DecidableEq, Repr

/-- Modelled from the spec: parsing a drilldown parses a level name. -/
def Drilldown.fromStr (s : String) : Except String Drilldown :=
  match LevelName.fromStr s with
  | Except.ok ln => Except.ok ⟨ln⟩
  | Except.error e => Except.error e

/-- Modelled from the spec: a measure name is a plain (undotted canonical)
token; parsing takes the whole token as the name and does not fail
(names.rs is absent from the provided sources). -/
structure Measure where
  name : String
deriving DecidableEq, Repr

/-- Modelled from the spec: measure parsing takes the token as the name. -/
def Measure.fromStr (s : String) : Except String Measure :=
  Except.ok ⟨s⟩

/-- Modelled from the spec: a property is a level name plus the property's
own name (names.rs is absent from the provided sources). -/
structure Property where
  level_name : LevelName
  property : String
deriving DecidableEq, Repr

/-- Modelled from the spec: a cut is a member-set filter on a level with an
include/exclude mask (names.rs is absent from the provided sources). -/
structure Cut where
  level_name : LevelName
  members : List String
  mask : Mask
deriving DecidableEq, Repr

/-- Modelled rendering of the Rust derived Debug output for a drilldown;
the claims only inspect the fixed message prefix in front of it, so the
exact layout is immaterial. -/
def drilldownDebug (d : Drilldown) : String :=
  "Drilldown(LevelName(" ++ d.level_name.dimension ++ ", "
    ++ d.level_name.hierarchy ++ ", " ++ d.level_name.level ++ "))"


/-!
Query model (src/tesseract-core/src/query.rs).
-/

/-- Sort direction (query.rs lines 330-334). -/
inductive SortDirection
  | Asc
  | Desc
deriving DecidableEq, Repr

/-- SortDirection::sql_string (query.rs lines 336-343). -/
def SortDirection.sql_string : SortDirection → String
  | SortDirection.Asc => "asc"
  | SortDirection.Desc => "desc"

/-- SortDirection::from_str (query.rs lines 345-355): exact tokens. -/
def SortDirection.fromStr (s : String) : Except String SortDirection :=
  if s = "asc" then Except.ok SortDirection.Asc
  else if s = "desc" then Except.ok SortDirection.Desc
  else Except.error "Could not parse sort direction"

/-- Built-in calculations (query.rs lines 148-152). -/
inductive Calculation
  | Rca
  | Growth
deriving DecidableEq, Repr

/-- Calculation::sql_string (query.rs lines 154-161). -/
def Calculation.sql_string : Calculation → String
  | Calculation.Rca => "rca"
  | Calculation.Growth => "growth"

/-- Calculation::from_str (query.rs lines 163-173): lowercases the token
then matches "rca" / "growth". -/
def Calculation.fromStr (s : String) : Except String Calculation :=
  if lowerStr s = "rca" then Except.ok Calculation.Rca
  else if lowerStr s = "growth" then Except.ok Calculation.Growth
  else Except.error ("'" ++ s ++ "' is not a supported calculation")

/-- A measure or a built-in calculation (query.rs lines 128-132). -/
inductive MeaOrCalc
  | Mea (m : Measure)
  | Calc (c : Calculation)
deriving DecidableEq, Repr

/-- MeaOrCalc::from_str (query.rs lines 134-146): try Calculation first,
fall back to Measure, error only when both fail. -/
def MeaOrCalc.fromStr (s : String) : Except String MeaOrCalc :=
  match Calculation.fromStr s with
  | Except.ok c => Except.ok (MeaOrCalc.Calc c)
  | Except.error _ =>
    match Measure.fromStr s with
    | Except.ok m => Except.ok (MeaOrCalc.Mea m)
    | Except.error _ =>
      Except.error ("Could not parse '" ++ s ++ "' to measure name or built-in calculation name")

/-- Comparison operators (query.rs lines 238-246). -/
inductive Comparison
  | Equal
  | NotEqual
  | LessThan
  | LessThanOrEqual
  | GreaterThan
  | GreaterThanOrEqual
deriving DecidableEq, Repr

/-- Comparison::sql_string (query.rs lines 248-258). -/
def Comparison.sql_string : Comparison → String
  | Comparison.Equal => "="
  | Comparison.NotEqual => "<>"
  | Comparison.LessThan => "<"
  | Comparison.LessThanOrEqual => "<="
  | Comparison.GreaterThan => ">"
  | Comparison.GreaterThanOrEqual => ">="

/-- Comparison::from_str (query.rs lines 261-275): six exact tokens. -/
def Comparison.fromStr (s : String) : Except String Comparison :=
  if s = "eq" then Except.ok Comparison.Equal
  else if s = "neq" then Except.ok Comparison.NotEqual
  else if s = "lt" then Except.ok Comparison.LessThan
  else if s = "lte" then Except.ok Comparison.LessThanOrEqual
  else if s = "gt" then Except.ok Comparison.GreaterThan
  else if s = "gte" then Except.ok Comparison.GreaterThanOrEqual
  else Except.error "Could not parse a comparison operator"

/-- A comparison against a signed 64-bit constant (query.rs lines 206-210). -/
structure Constraint where
  comparison : Comparison
  n : Int
deriving DecidableEq, Repr

/-- Constraint::sql_string (query.rs lines 212-216). -/
def Constraint.sql_string (c : Constraint) : String :=
  c.comparison.sql_string ++ " " ++ toString c.n

/-- Constraint::from_str (query.rs lines 218-236): split on "." into
exactly [comparison, n], parse each. -/
def Constraint.fromStr (s : String) : Except String Constraint :=
  match rsplit '.' s with
  | [comparison, n] =>
    match Comparison.fromStr comparison with
    | Except.error e => Except.error e
    | Except.ok cmp =>
      match parseI64 n with
      | none => Except.error "invalid i64"
      | some v => Except.ok ⟨cmp, v⟩
  | _ => Except.error "Could not parse a Constraint"

/-- Top-N-per-group request (query.rs lines 78-84). -/
structure TopQuery where
  n : Nat
  by_dimension : LevelName
  sort_mea_or_calc : List MeaOrCalc
  sort_direction : SortDirection
deriving DecidableEq, Repr

/-- TopQuery::from_str (query.rs lines 101-123): split on "," into exactly
four fields, parse them as u64, LevelName, MeaOrCalc, SortDirection. -/
def TopQuery.fromStr (s : String) : Except String TopQuery :=
  match rsplit ',' s with
  | [n, by_dimension, sort_measure, sort_direction] =>
    match parseU64 n with
    | none => Except.error "invalid u64"
    | some nv =>
      match LevelName.fromStr by_dimension with
      | Except.error e => Except.error e
      | Except.ok bd =>
        match MeaOrCalc.fromStr sort_measure with
        | Except.error e => Except.error e
        | Except.ok mc =>
          match SortDirection.fromStr sort_direction with
          | Except.error e => Except.error e
          | Except.ok sd => Except.ok ⟨nv, bd, [mc], sd⟩
  | _ => Except.error "Could not parse a top query"

/-- Pre-top filter (query.rs lines 176-180). -/
structure TopWhereQuery where
  by_mea_or_calc : MeaOrCalc
  constraint : Constraint
deriving DecidableEq, Repr

/-- TopWhereQuery::from_str (query.rs lines 183-201). -/
def TopWhereQuery.fromStr (s : String) : Except String TopWhereQuery :=
  match rsplit ',' s with
  | [by_mea, constraint] =>
    match MeaOrCalc.fromStr by_mea with
    | Except.error e => Except.error e
    | Except.ok mc =>
      match Constraint.fromStr constraint with
      | Except.error e => Except.error e
      | Except.ok con => Except.ok ⟨mc, con⟩
  | _ => Except.error "Could not parse a top_where query"

/-- Row-limit request (query.rs lines 277-281). -/
structure LimitQuery where
  offset : Option Nat
  n : Nat
deriving DecidableEq, Repr

/-- LimitQuery::from_str (query.rs lines 283-303): "n" or "offset,n". -/
def LimitQuery.fromStr (s : String) : Except String LimitQuery :=
  match rsplit ',' s with
  | [offset, n] =>
    match parseU64 offset with
    | none => Except.error "invalid u64"
    | some ov =>
      match parseU64 n with
      | none => Except.error "invalid u64"
      | some nv => Except.ok ⟨some ov, nv⟩
  | [n] =>
    match parseU64 n with
    | none => Except.error "invalid u64"
    | some nv => Except.ok ⟨none, nv⟩
  | _ => Except.error "Could not parse a limit query"

/-- Sort request (query.rs lines 305-309). -/
structure SortQuery where
  direction : SortDirection
  measure : Measure
deriving DecidableEq, Repr

/-- SortQuery::from_str (query.rs lines 311-328): "measure.direction". -/
def SortQuery.fromStr (s : String) : Except String SortQuery :=
  match rsplit '.' s with
  | [measure, direction] =>
    match Measure.fromStr measure with
    | Except.error e => Except.error e
    | Except.ok m =>
      match SortDirection.fromStr direction with
      | Except.error e => Except.error e
      | Except.ok d => Except.ok ⟨d, m⟩
  | _ => Except.error "Could not parse a sort query"

/-- RCA request (query.rs lines 357-362). -/
structure RcaQuery where
  drill_1 : Drilldown
  drill_2 : Drilldown
  mea : Measure
deriving DecidableEq, Repr

/-- RcaQuery::from_str (query.rs lines 382-402). -/
def RcaQuery.fromStr (s : String) : Except String RcaQuery :=
  match rsplit ',' s with
  | [drill_1, drill_2, measure] =>
    match Drilldown.fromStr drill_1 with
    | Except.error e => Except.error e
    | Except.ok d1 =>
      match Drilldown.fromStr drill_2 with
      | Except.error e => Except.error e
      | Except.ok d2 =>
        match Measure.fromStr measure with
        | Except.error e => Except.error e
        | Except.ok m => Except.ok ⟨d1, d2, m⟩
  | _ => Except.error "Could not parse an rca query, wrong number of args"

/-- Growth request (query.rs lines 404-408). -/
structure GrowthQuery where
  time_drill : Drilldown
  mea : Measure
deriving DecidableEq, Repr

/-- GrowthQuery::from_str (query.rs lines 422-440). -/
def GrowthQuery.fromStr (s : String) : Except String GrowthQuery :=
  match rsplit ',' s with
  | [time_drill, measure] =>
    match Drilldown.fromStr time_drill with
    | Except.error e => Except.error e
    | Except.ok td =>
      match Measure.fromStr measure with
      | Except.error e => Except.error e
      | Except.ok m => Except.ok ⟨td, m⟩
  | _ => Except.error "Could not parse a growth query, wrong number of args"

/-- Post-aggregation filter (query.rs lines 443-447). -/
structure FilterQuery where
  by_mea_or_calc : MeaOrCalc
  constraint : Constraint
deriving DecidableEq, Repr

/-- FilterQuery::from_str (query.rs lines 450-468). -/
def FilterQuery.fromStr (s : String) : Except String FilterQuery :=
  match rsplit ',' s with
  | [by_mea, constraint] =>
    match MeaOrCalc.fromStr by_mea with
    | Except.error e => Except.error e
    | Except.ok mc =>
      match Constraint.fromStr constraint with
      | Except.error e => Except.error e
      | Except.ok con => Except.ok ⟨mc, con⟩
  | _ => Except.error "Could not parse a filter query"

/-- Rate request (query.rs lines 471-475). -/
structure RateQuery where
  level_name : LevelName
  values : List String
deriving DecidableEq, Repr

/-- RateQuery::from_str (query.rs lines 486-506): split on ".", reject 2 or
fewer or 5 or more segments, rejoin the leading segments with "." and parse
them as a level name, split the last segment on "," into values. -/
def RateQuery.fromStr (s : String) : Except String RateQuery :=
  let rate_split := rsplit '.' s
  let n := rate_split.length
  if n ≤ 2 ∨ n ≥ 5 then
    Except.error "Malformatted RateQuery"
  else
    let level := joinSep "." (rate_split.take (n - 1))
    match LevelName.fromStr level with
    | Except.error e => Except.error e
    | Except.ok level_name =>
      Except.ok ⟨level_name, rsplit ',' (rate_split.getD (n - 1) "")⟩

/-- The full user query (query.rs lines 14-33). -/
structure Query where
  cuts : List Cut
  drilldowns : List Drilldown
  measures : List Measure
  properties : List Property
  filters : List FilterQuery
  captions : List Property
  parents : Bool
  top : Option TopQuery
  top_where : Option TopWhereQuery
  sort : Option SortQuery
  limit : Option LimitQuery
  rca : Option RcaQuery
  growth : Option GrowthQuery
  rate : Option RateQuery
  debug : Bool
  sparse : Bool
  exclude_default_members : Bool

/-- Query::new (query.rs lines 36-56): all containers empty, options none,
flags false. -/
def Query.new : Query :=
  ⟨[], [], [], [], [], [], false, none, none, none, none, none, none, none,
    false, false, false⟩

/-- Query::validate (query.rs lines 58-70): succeed when RCA is absent or
the drilldown list is empty; otherwise fail on the first drilldown equal to
either RCA drilldown. -/
def Query.validate (q : Query) : Except String Unit :=
  match q.rca with
  | none => Except.ok ()
  | some rca =>
    if q.drilldowns.isEmpty then Except.ok ()
    else
      match q.drilldowns.find? (fun d => decide (rca.drill_1 = d) || decide (rca.drill_2 = d)) with
      | none => Except.ok ()
      | some d =>
        Except.error ("Duplicated drilldown in RCA and drilldowns: " ++ drilldownDebug d)

/-!
Schema fragments referenced by the IR (src/tesseract-core/src/schema.rs is
not included in the sources at hand; Table and InlineTable are modelled
from the spec).
-/

/-- Modelled from the spec: a physical table reference with an optional
schema qualifier (schema.rs is absent from the provided sources). -/
structure Table where
  name : String
  schema : Option String
  primary_key : Option String
deriving DecidableEq, Repr

/-- Modelled from the spec: the full physical name of a table, qualified by
its schema when one is set (schema.rs is absent from the provided
sources). -/
def Table.full_name (t : Table) : String :=
  match t.schema with
  | some s => s ++ "." ++ t.name
  | none => t.name

/-- Modelled from the spec: an inline (VALUES-style) table; sql_string
returns its subquery SQL and alias names it (schema.rs is absent from the
provided sources, and the claims use the produced SQL only as an opaque
string). -/
structure InlineTable where
  «alias» : String
  sql : String
deriving DecidableEq, Repr

/-- Modelled from the spec: the VALUES-style subquery SQL of an inline
table. -/
def InlineTable.sql_string (t : InlineTable) : String :=
  t.sql

/-- Modelled from the spec: measure aggregators (schema/aggregator.rs is
absent from the provided sources). -/
inductive Aggregator
  | Sum
  | Avg
  | Min
  | Max
  | Count
  | DistinctCount
  | Median
  | Quantile
  | BasicWeightedAverage
  | Custom (s : String)
deriving DecidableEq, Repr

/-- Modelled from the spec: conjunction/disjunction combiner for two-clause
filters (referenced by query_ir.rs but not defined in the provided
sources). -/
inductive Operator
  | And
  | Or
deriving DecidableEq, Repr

/-!
Query IR (src/tesseract-core/src/query_ir.rs).
-/

/-- Fact-table node of the IR (query_ir.rs lines 29-33). -/
structure TableSql where
  name : String
  primary_key : Option String
deriving DecidableEq, Repr

/-- Key/name column pair of one level (query_ir.rs lines 195-199). -/
structure LevelColumn where
  key_column : String
  name_column : Option String
deriving DecidableEq, Repr

/-- Drilldown node of the IR (query_ir.rs lines 35-44). -/
structure DrilldownSql where
  alias_postfix : String
  table : Table
  primary_key : String
  foreign_key : String
  level_columns : List LevelColumn
  property_columns : List String
  inline_table : Option InlineTable
deriving DecidableEq, Repr

/-- DrilldownSql::col_alias_vec (query_ir.rs lines 56-84): one string per
level ("key as key_postfix", plus ", name as name_postfix" when the level
has a name column), then one string joining the property columns when
there are any. -/
def DrilldownSql.col_alias_vec (d : DrilldownSql) : List String :=
  let ap := DrilldownSql.alias_postfix d
  (d.level_columns.map (fun l =>
    match l.name_column with
    | some name_col =>
      l.key_column ++ " as " ++ l.key_column ++ "_" ++ ap ++ ", "
        ++ name_col ++ " as " ++ name_col ++ "_" ++ ap
    | none =>
      l.key_column ++ " as " ++ l.key_column ++ "_" ++ ap))
  ++ (if d.property_columns.isEmpty then []
      else [joinSep ", " d.property_columns])

/-- DrilldownSql::col_alias_string (query_ir.rs lines 47-50). -/
def DrilldownSql.col_alias_string (d : DrilldownSql) : String :=
  joinSep ", " d.col_alias_vec

/-- DrilldownSql::col_alias_vec2 (query_ir.rs lines 91-121): like
col_alias_vec but with the key column qualified by the table name. -/
def DrilldownSql.col_alias_vec2 (d : DrilldownSql) : List String :=
  let ap := DrilldownSql.alias_postfix d
  (d.level_columns.map (fun l =>
    match l.name_column with
    | some name_col =>
      d.table.name ++ "." ++ l.key_column ++ " as " ++ l.key_column ++ "_" ++ ap ++ ", "
        ++ name_col ++ " as " ++ name_col ++ "_" ++ ap
    | none =>
      d.table.name ++ "." ++ l.key_column ++ " as " ++ l.key_column ++ "_" ++ ap))
  ++ (if d.property_columns.isEmpty then []
      else [joinSep ", " d.property_columns])

/-- DrilldownSql::col_alias_string2 (query_ir.rs lines 86-89). -/
def DrilldownSql.col_alias_string2 (d : DrilldownSql) : String :=
  joinSep ", " d.col_alias_vec2

/-- DrilldownSql::col_alias_only_vec (query_ir.rs lines 128-156): the bare
aliases, one entry per key column and one per name column, then one entry
joining the property columns (unaliased) when there are any. -/
def DrilldownSql.col_alias_only_vec (d : DrilldownSql) : List String :=
  let ap := DrilldownSql.alias_postfix d
  (d.level_columns.flatMap (fun l =>
    (l.key_column ++ "_" ++ ap)
      :: (match l.name_column with
          | some name_col => [name_col ++ "_" ++ ap]
          | none => [])))
  ++ (if d.property_columns.isEmpty then []
      else [joinSep ", " d.property_columns])

/-- DrilldownSql::col_alias_only_string (query_ir.rs lines 123-126). -/
def DrilldownSql.col_alias_only_string (d : DrilldownSql) : String :=
  joinSep ", " d.col_alias_only_vec

/-- DrilldownSql::col_qual_vec (query_ir.rs lines 163-185): table-qualified
column names without aliases. -/
def DrilldownSql.col_qual_vec (d : DrilldownSql) : List String :=
  (d.level_columns.map (fun l =>
    match l.name_column with
    | some name_col =>
      d.table.name ++ "." ++ l.key_column ++ ", " ++ d.table.name ++ "." ++ name_col
    | none =>
      d.table.name ++ "." ++ l.key_column))
  ++ (if d.property_columns.isEmpty then []
      else [joinSep ", " (d.property_columns.map (fun p => d.table.name ++ "." ++ p))])

/-- DrilldownSql::col_qual_string (query_ir.rs lines 158-161). -/
def DrilldownSql.col_qual_string (d : DrilldownSql) : String :=
  joinSep ", " d.col_qual_vec

/-- Hidden drilldown node (query_ir.rs lines 188-191). -/
structure HiddenDrilldownSql where
  drilldown_sql : DrilldownSql
deriving DecidableEq, Repr

/-- Member type of a cut's level (query_ir.rs lines 274-280). -/
inductive MemberType
  | Text
  | NonText
deriving DecidableEq, Repr

/-- Cut node of the IR (query_ir.rs lines 201-214). -/
structure CutSql where
  table : Table
  primary_key : String
  foreign_key : String
  column : String
  members : List String
  member_type : MemberType
  mask : Mask
  for_match : Bool
  inline_table : Option InlineTable
deriving DecidableEq, Repr

/-- CutSql::members_string (query_ir.rs lines 217-228): members joined by
", ", each single-quoted when the member type is Text. -/
def CutSql.members_string (c : CutSql) : String :=
  match c.member_type with
  | MemberType.NonText => joinSep ", " c.members
  | MemberType.Text => joinSep ", " (c.members.map (fun m => "'" ++ m ++ "'"))

/-- CutSql::mask_sql_in_string (query_ir.rs lines 259-264). -/
def CutSql.mask_sql_in_string (c : CutSql) : String :=
  match c.mask with
  | Mask.Include => "in"
  | Mask.Exclude => "not in"

/-- CutSql::mask_sql_like_string (query_ir.rs lines 266-271). -/
def CutSql.mask_sql_like_string (c : CutSql) : String :=
  match c.mask with
  | Mask.Include => "like"
  | Mask.Exclude => "not like"

/-- CutSql::members_like_string (query_ir.rs lines 230-253): LIKE clauses
per member, a parenthesized disjunction for Include and a bare conjunction
for Exclude; members are wrapped in '%...%' only for Text member type. -/
def CutSql.members_like_string (c : CutSql) : String :=
  match c.member_type with
  | MemberType.NonText =>
    let unquoted := c.members.map (fun m =>
      c.column ++ " " ++ c.mask_sql_like_string ++ " " ++ m)
    match c.mask with
    | Mask.Include => "(" ++ joinSep " or " unquoted ++ ")"
    | Mask.Exclude => joinSep " and " unquoted
  | MemberType.Text =>
    let quoted := c.members.map (fun m =>
      c.column ++ " " ++ c.mask_sql_like_string ++ " '%" ++ m ++ "%'")
    match c.mask with
    | Mask.Include => "(" ++ joinSep " or " quoted ++ ")"
    | Mask.Exclude => joinSep " and " quoted

/-- CutSql::col_qual_string (query_ir.rs lines 255-257). -/
def CutSql.col_qual_string (c : CutSql) : String :=
  c.table.name ++ "." ++ c.column

/-- Measure node of the IR (query_ir.rs lines 282-286). -/
structure MeasureSql where
  aggregator : Aggregator
  column : String
deriving DecidableEq, Repr

/-- Top node of the IR (query_ir.rs lines 296-302). -/
structure TopSql where
  n : Nat
  by_column : String
  sort_columns : List String
  sort_direction : SortDirection
deriving DecidableEq, Repr

/-- Top-where node of the IR (query_ir.rs lines 304-308). -/
structure TopWhereSql where
  by_column : String
  constraint : Constraint
deriving DecidableEq, Repr

/-- Filter node of the IR (query_ir.rs lines 310-317). -/
structure FilterSql where
  by_column : String
  constraint : Constraint
  operator : Option Operator
  constraint2 : Option Constraint
deriving DecidableEq, Repr

/-- Limit node of the IR (query_ir.rs lines 320-324). -/
structure LimitSql where
  offset : Option Nat
  n : Nat
deriving DecidableEq, Repr

/-- From LimitQuery (query_ir.rs lines 326-333). -/
def LimitSql.fromLimitQuery (l : LimitQuery) : LimitSql :=
  ⟨l.offset, l.n⟩

/-- Sort node of the IR (query_ir.rs lines 335-339). -/
structure SortSql where
  direction : SortDirection
  column : String
deriving DecidableEq, Repr

/-- RCA node of the IR (query_ir.rs lines 341-349). -/
structure RcaSql where
  drill_1 : List DrilldownSql
  drill_2 : List DrilldownSql
  mea : MeasureSql
  debug : Bool
deriving DecidableEq, Repr

/-- Growth node of the IR (query_ir.rs lines 351-355). -/
structure GrowthSql where
  time_drill : DrilldownSql
  mea : String
deriving DecidableEq, Repr

/-- Rate node of the IR (query_ir.rs lines 357-361). -/
structure RateSql where
  drilldown_sql : DrilldownSql
  members : List String
deriving DecidableEq, Repr

/-- The compiled query IR (query_ir.rs lines 10-27). -/
structure QueryIr where
  table : TableSql
  cuts : List CutSql
  drills : List DrilldownSql
  meas : List MeasureSql
  hidden_drills : List HiddenDrilldownSql
  filters : List FilterSql
  top : Option TopSql
  top_where : Option TopWhereSql
  sort : Option SortSql
  limit : Option LimitSql
  rca : Option RcaSql
  growth : Option GrowthSql
  rate : Option RateSql
  sparse : Bool
deriving DecidableEq, Repr

/-- A dimension-table subquery (query_ir.rs lines 363-368). -/
structure DimSubquery where
  sql : String
  foreign_key : String
  dim_cols : Option String
deriving DecidableEq, Repr

/-- dim_subquery (query_ir.rs lines 375-439): builds the dimension-table
subquery for a drilldown (selected aliased columns plus the primary key
renamed to the foreign key; the FROM clause is the inline table subquery
when one is present, the table's full name otherwise). With no drilldown
but a cut, selects only the renamed primary key with the cut inlined via
"in"; with neither, returns the empty subquery. -/
def dim_subquery (drill : Option DrilldownSql) (cut : Option CutSql) : DimSubquery :=
  match drill with
  | some drill =>
    let drill_table :=
      match drill.inline_table with
      | some it => "(" ++ it.sql_string ++ ") as " ++ InlineTable.alias it
      | none => drill.table.full_name
    DimSubquery.mk
      ("select " ++ drill.col_alias_string ++ ", " ++ drill.primary_key
        ++ " as " ++ drill.foreign_key ++ " from " ++ drill_table)
      drill.foreign_key
      (some drill.col_alias_only_string)
  | none =>
    match cut with
    | some cut =>
      DimSubquery.mk
        ("select " ++ cut.primary_key ++ " as " ++ cut.foreign_key ++ " from "
          ++ cut.table.full_name ++ " where " ++ cut.column ++ " in ("
          ++ cut.members_string ++ ")")
        cut.foreign_key
        none
    | none => DimSubquery.mk "" "" none

/-!
Theorems checking the specification claims.
-/

/-- Claim C2: for every DrilldownSql, dim_subquery with a drilldown present
produces "select <aliased level columns>(, <property columns>), <primary_key>
as <foreign_key> from <table full name>"; each level key column is aliased
as key_column plus "_" plus the alias postfix, a name column additionally
so, and when the drilldown has an inline table the FROM clause is the
inline table's sql_string wrapped as "(<sql>) as <alias>" in place of a
schema table name. -/
theorem dim_subquery_drill_sql (drill : DrilldownSql) (cut : Option CutSql) :
    (dim_subquery (some drill) cut).sql =
      "select "
        ++ joinSep ", "
            ((drill.level_columns.map (fun l =>
              match l.name_column with
              | some name_col =>
                l.key_column ++ " as " ++ l.key_column ++ "_" ++ DrilldownSql.alias_postfix drill
                  ++ ", " ++ name_col ++ " as " ++ name_col ++ "_" ++ DrilldownSql.alias_postfix drill
              | none =>
                l.key_column ++ " as " ++ l.key_column ++ "_" ++ DrilldownSql.alias_postfix drill))
            ++ (if drill.property_columns.isEmpty then []
                else [joinSep ", " drill.property_columns]))
        ++ ", " ++ drill.primary_key ++ " as " ++ drill.foreign_key ++ " from "
        ++ (match drill.inline_table with
            | some it => "(" ++ InlineTable.sql_string it ++ ") as " ++ InlineTable.alias it
            | none => drill.table.full_name) := rfl

/-- Claim C3: the SQL membership operator of a cut is "in" for an Include
mask and "not in" for an Exclude mask, and members_string joins the members
with ", ", single-quoting each member for Text member type and leaving them
unquoted for NonText. -/
theorem cut_sql_in_operator_and_members (tbl : Table) (pk fk col : String)
    (ms : List String) (mt : MemberType) (msk : Mask) (fm : Bool)
    (it : Option InlineTable) :
    CutSql.mask_sql_in_string ⟨tbl, pk, fk, col, ms, mt, Mask.Include, fm, it⟩ = "in"
    ∧ CutSql.mask_sql_in_string ⟨tbl, pk, fk, col, ms, mt, Mask.Exclude, fm, it⟩ = "not in"
    ∧ CutSql.members_string ⟨tbl, pk, fk, col, ms, MemberType.Text, msk, fm, it⟩
        = joinSep ", " (ms.map (fun m => "'" ++ m ++ "'"))
    ∧ CutSql.members_string ⟨tbl, pk, fk, col, ms, MemberType.NonText, msk, fm, it⟩
        = joinSep ", " ms :=
  ⟨rfl, rfl, rfl, rfl⟩

/-- Claim C4: members_like_string renders a Text cut as a parenthesized
disjunction of "col like '%m%'" clauses for an Include mask and as a bare
conjunction of "col not like '%m%'" clauses for an Exclude mask; for
NonText member type the same shapes are emitted with each member unquoted
and without the wildcard wrapping. -/
theorem cut_sql_like_rendering (tbl : Table) (pk fk col : String)
    (ms : List String) (fm : Bool) (it : Option InlineTable) :
    CutSql.members_like_string ⟨tbl, pk, fk, col, ms, MemberType.Text, Mask.Include, fm, it⟩
        = "(" ++ joinSep " or " (ms.map (fun m => col ++ " " ++ "like" ++ " '%" ++ m ++ "%'")) ++ ")"
    ∧ CutSql.members_like_string ⟨tbl, pk, fk, col, ms, MemberType.Text, Mask.Exclude, fm, it⟩
        = joinSep " and " (ms.map (fun m => col ++ " " ++ "not like" ++ " '%" ++ m ++ "%'"))
    ∧ CutSql.members_like_string ⟨tbl, pk, fk, col, ms, MemberType.NonText, Mask.Include, fm, it⟩
        = "(" ++ joinSep " or " (ms.map (fun m => col ++ " " ++ "like" ++ " " ++ m)) ++ ")"
    ∧ CutSql.members_like_string ⟨tbl, pk, fk, col, ms, MemberType.NonText, Mask.Exclude, fm, it⟩
        = joinSep " and " (ms.map (fun m => col ++ " " ++ "not like" ++ " " ++ m)) :=
  ⟨rfl, rfl, rfl, rfl⟩

/-- Claim C10: dim_subquery with no drilldown but a cut emits
"select <primary_key> as <foreign_key> from <table full name> where
<column> in (<members>)", with the literal operator "in" whatever the
cut's mask and for_match flag are, and dim_subquery with neither argument
returns the empty subquery (empty sql, empty foreign key, no dim
columns). -/
theorem dim_subquery_cut_only (cut : CutSql) :
    dim_subquery none (some cut) =
      DimSubquery.mk
        ("select " ++ cut.primary_key ++ " as " ++ cut.foreign_key ++ " from "
          ++ cut.table.full_name ++ " where " ++ cut.column ++ " in ("
          ++ cut.members_string ++ ")")
        cut.foreign_key
        none
    ∧ dim_subquery none none = DimSubquery.mk "" "" none :=
  ⟨rfl, rfl⟩

/-- Claim C1: validate succeeds whenever the query has no RCA or an empty
drilldown list; with RCA set, it fails with a message containing
"Duplicated drilldown in RCA" when some drilldown equals either RCA
drilldown, and succeeds when none does. -/
theorem query_validate_rca_disjointness :
    (∀ q : Query, q.rca = none → q.validate = Except.ok ())
    ∧ (∀ q : Query, q.drilldowns = [] → q.validate = Except.ok ())
    ∧ (∀ (q : Query) (rca : RcaQuery), q.rca = some rca →
        (∃ d ∈ q.drilldowns, d = rca.drill_1 ∨ d = rca.drill_2) →
        ∃ suffix, q.validate = Except.error ("Duplicated drilldown in RCA" ++ suffix))
    ∧ (∀ (q : Query) (rca : RcaQuery), q.rca = some rca →
        (∀ d ∈ q.drilldowns, d ≠ rca.drill_1 ∧ d ≠ rca.drill_2) →
        q.validate = Except.ok ()) := by
  refine ⟨?_, ?_, ?_, ?_⟩
  · intro q h
    simp [Query.validate, h]
  · intro q h
    cases hr : q.rca with
    | none => simp [Query.validate, hr]
    | some rca => simp [Query.validate, hr, h]
  · intro q rca hr hex
    obtain ⟨d, hd, hor⟩ := hex
    have hne : q.drilldowns.isEmpty = false := by
      cases hq : q.drilldowns with
      | nil => rw [hq] at hd; cases hd
      | cons a l => simp [hq]
    have hsome : (q.drilldowns.find?
        (fun d => decide (rca.drill_1 = d) || decide (rca.drill_2 = d))).isSome = true := by
      rw [List.find?_isSome]
      refine ⟨d, hd, ?_⟩
      rcases hor with h1 | h1 <;> simp [h1]
    obtain ⟨found, hfound⟩ := Option.isSome_iff_exists.mp hsome
    refine ⟨" and drilldowns: " ++ drilldownDebug found, ?_⟩
    simp only [Query.validate, hr, hne, hfound, Bool.false_eq_true, if_false]
    rw [← String.append_assoc]
    rfl
  · intro q rca hr hall
    have hnone : q.drilldowns.find?
        (fun d => decide (rca.drill_1 = d) || decide (rca.drill_2 = d)) = none := by
      rw [List.find?_eq_none]
      intro x hx
      have h1 := (hall x hx).1
      have h2 := (hall x hx).2
      simp only [Bool.or_eq_true, decide_eq_true_eq, not_or]
      exact ⟨fun h => h1 h.symm, fun h => h2 h.symm⟩
    cases he : q.drilldowns.isEmpty with
    | true => simp [Query.validate, hr, he]
    | false => simp [Query.validate, hr, he, hnone]

/-- Claim C1 witness: validate evaluated on an empty query, on a query
whose RCA first drilldown also appears in the drilldowns, and on a query
with RCA and a disjoint drilldown. -/
theorem query_validate_rca_disjointness_witness :
    Query.validate ⟨[], [], [], [], [], [], false, none, none, none, none, none, none,
        none, false, false, false⟩ = Except.ok ()
    ∧ (∃ suffix, Query.validate ⟨[], [⟨⟨"1", "2", "3"⟩⟩], [], [], [], [], false, none, none,
        none, none, some ⟨⟨⟨"1", "2", "3"⟩⟩, ⟨⟨"4", "5", "6"⟩⟩, ⟨"7"⟩⟩, none, none,
        false, false, false⟩ = Except.error ("Duplicated drilldown in RCA" ++ suffix))
    ∧ Query.validate ⟨[], [⟨⟨"9", "9", "9"⟩⟩], [], [], [], [], false, none, none,
        none, none, some ⟨⟨⟨"1", "2", "3"⟩⟩, ⟨⟨"4", "5", "6"⟩⟩, ⟨"7"⟩⟩, none, none,
        false, false, false⟩ = Except.ok () :=
  ⟨query_validate_rca_disjointness.1 _ rfl,
   query_validate_rca_disjointness.2.2.1 _ _ rfl
     ⟨⟨⟨"1", "2", "3"⟩⟩, by simp, Or.inl rfl⟩,
   query_validate_rca_disjointness.2.2.2 _ _ rfl (by decide)⟩

/-- Claim C9: parsing a MeaOrCalc tries Calculation first, so the
case-insensitive tokens "rca" and "growth" always parse to the Calc
variant (shadowing same-named measures); every other token parses to Mea
with the token itself as the measure name, and the parse never fails. -/
theorem mea_or_calc_parse_characterization :
    (∀ s : String, MeaOrCalc.fromStr s =
      (if lowerStr s = "rca" then Except.ok (MeaOrCalc.Calc Calculation.Rca)
       else if lowerStr s = "growth" then Except.ok (MeaOrCalc.Calc Calculation.Growth)
       else Except.ok (MeaOrCalc.Mea ⟨s⟩)))
    ∧ MeaOrCalc.fromStr "RCA" = Except.ok (MeaOrCalc.Calc Calculation.Rca)
    ∧ MeaOrCalc.fromStr "Growth" = Except.ok (MeaOrCalc.Calc Calculation.Growth)
    ∧ MeaOrCalc.fromStr "Sales" = Except.ok (MeaOrCalc.Mea ⟨"Sales"⟩) := by
  refine ⟨?_, rfl, rfl, rfl⟩
  intro s
  by_cases h1 : lowerStr s = "rca"
  · simp [MeaOrCalc.fromStr, Calculation.fromStr, h1]
  · by_cases h2 : lowerStr s = "growth" <;>
      simp [MeaOrCalc.fromStr, Calculation.fromStr, Measure.fromStr, h1, h2]

/-- Helper: Comparison::from_str succeeds exactly on the six comparison
tokens. -/
theorem comparison_fromStr_isOk (c : String) :
    (Comparison.fromStr c).isOk =
      (c == "eq" || c == "neq" || c == "lt" || c == "lte" || c == "gt" || c == "gte") := by
  by_cases h1 : c = "eq" <;> by_cases h2 : c = "neq" <;> by_cases h3 : c = "lt" <;>
    by_cases h4 : c = "lte" <;> by_cases h5 : c = "gt" <;> by_cases h6 : c = "gte" <;>
    simp [Comparison.fromStr, h1, h2, h3, h4, h5, h6, Except.isOk, Except.toBool]

/-- Claim C6: parsing a Constraint succeeds exactly on strings splitting on
"." into a comparison token among eq/neq/lt/lte/gt/gte and a signed 64-bit
integer; the six tokens map to the six comparison variants whose sql_string
values are "=", "<>", "<", "<=", ">", ">="; "gt.100" parses to GreaterThan
with n = 100. -/
theorem constraint_parse_characterization :
    (∀ s : String, (Constraint.fromStr s).isOk =
      (match rsplit '.' s with
       | [c, n] =>
         (c == "eq" || c == "neq" || c == "lt" || c == "lte" || c == "gt" || c == "gte")
           && (parseI64 n).isSome
       | _ => false))
    ∧ (∀ c : String, (Comparison.fromStr c).isOk =
        (c == "eq" || c == "neq" || c == "lt" || c == "lte" || c == "gt" || c == "gte"))
    ∧ Comparison.fromStr "eq" = Except.ok Comparison.Equal
    ∧ Comparison.fromStr "neq" = Except.ok Comparison.NotEqual
    ∧ Comparison.fromStr "lt" = Except.ok Comparison.LessThan
    ∧ Comparison.fromStr "lte" = Except.ok Comparison.LessThanOrEqual
    ∧ Comparison.fromStr "gt" = Except.ok Comparison.GreaterThan
    ∧ Comparison.fromStr "gte" = Except.ok Comparison.GreaterThanOrEqual
    ∧ Comparison.sql_string Comparison.Equal = "="
    ∧ Comparison.sql_string Comparison.NotEqual = "<>"
    ∧ Comparison.sql_string Comparison.LessThan = "<"
    ∧ Comparison.sql_string Comparison.LessThanOrEqual = "<="
    ∧ Comparison.sql_string Comparison.GreaterThan = ">"
    ∧ Comparison.sql_string Comparison.GreaterThanOrEqual = ">="
    ∧ Constraint.fromStr "gt.100" = Except.ok ⟨Comparison.GreaterThan, 100⟩ := by
  refine ⟨?_, comparison_fromStr_isOk, rfl, rfl, rfl, rfl, rfl, rfl, rfl, rfl, rfl,
    rfl, rfl, rfl, rfl⟩
  intro s
  rcases hs : rsplit '.' s with - | ⟨c, - | ⟨n, - | ⟨x, rest⟩⟩⟩
  · simp [Constraint.fromStr, hs, Except.isOk, Except.toBool]
  · simp [Constraint.fromStr, hs, Except.isOk, Except.toBool]
  · have hcmp := comparison_fromStr_isOk c
    cases hc : Comparison.fromStr c with
    | error e =>
      rw [hc] at hcmp
      simp only [Except.isOk, Except.toBool] at hcmp
      simp [Constraint.fromStr, hs, hc, ← hcmp, Except.isOk, Except.toBool]
    | ok cmp =>
      rw [hc] at hcmp
      simp only [Except.isOk, Except.toBool] at hcmp
      cases hpi : parseI64 n with
      | none => simp [Constraint.fromStr, hs, hc, hpi, ← hcmp, Except.isOk, Except.toBool]
      | some v => simp [Constraint.fromStr, hs, hc, hpi, ← hcmp, Except.isOk, Except.toBool]
  · simp [Constraint.fromStr, hs, Except.isOk, Except.toBool]

/-- Claim C5: parsing a TopQuery succeeds exactly when the string splits on
"," into four fields parsing as u64, LevelName, MeaOrCalc and
SortDirection; "5,Geo.State,Sales,desc" parses to n = 5, by_dimension =
Geo.Geo.State, sort = [Mea Sales], direction = Desc. -/
theorem top_query_parse_characterization :
    (∀ s : String, (TopQuery.fromStr s).isOk =
      (match rsplit ',' s with
       | [n, b, m, d] =>
         (parseU64 n).isSome && (LevelName.fromStr b).isOk
           && (MeaOrCalc.fromStr m).isOk && (SortDirection.fromStr d).isOk
       | _ => false))
    ∧ TopQuery.fromStr "5,Geo.State,Sales,desc" =
        Except.ok ⟨5, ⟨"Geo", "Geo", "State"⟩, [MeaOrCalc.Mea ⟨"Sales"⟩],
          SortDirection.Desc⟩ := by
  refine ⟨?_, rfl⟩
  intro s
  rcases hs : rsplit ',' s with - | ⟨n, - | ⟨b, - | ⟨m, - | ⟨d, - | ⟨e, rest⟩⟩⟩⟩⟩
  · simp [TopQuery.fromStr, hs, Except.isOk, Except.toBool]
  · simp [TopQuery.fromStr, hs, Except.isOk, Except.toBool]
  · simp [TopQuery.fromStr, hs, Except.isOk, Except.toBool]
  · simp [TopQuery.fromStr, hs, Except.isOk, Except.toBool]
  · cases hn : parseU64 n with
    | none => simp [TopQuery.fromStr, hs, hn, Except.isOk, Except.toBool]
    | some nv =>
      cases hb : LevelName.fromStr b with
      | error e => simp [TopQuery.fromStr, hs, hn, hb, Except.isOk, Except.toBool]
      | ok bv =>
        cases hm : MeaOrCalc.fromStr m with
        | error e => simp [TopQuery.fromStr, hs, hn, hm, hb, Except.isOk, Except.toBool]
        | ok mv =>
          cases hd : SortDirection.fromStr d with
          | error e => simp [TopQuery.fromStr, hs, hn, hm, hb, hd, Except.isOk, Except.toBool]
          | ok dv => simp [TopQuery.fromStr, hs, hn, hm, hb, hd, Except.isOk, Except.toBool]
  · simp [TopQuery.fromStr, hs, Except.isOk, Except.toBool]

/-- Helper: splitting always yields at least one piece. -/
theorem splitCh_ne_nil (sep : Char) (l : List Char) : splitCh sep l ≠ [] := by
  induction l with
  | nil => simp [splitCh]
  | cons c rest ih =>
    simp only [splitCh]
    by_cases h : c = sep
    · simp [h]
    · simp only [if_neg h]
      cases hr : splitCh sep rest with
      | nil => simp
      | cons a t => simp

/-- Helper: no piece produced by splitting contains the separator. -/
theorem mem_splitCh_not_mem (sep : Char) (l : List Char) :
    ∀ p ∈ splitCh sep l, sep ∉ p := by
  induction l with
  | nil =>
    intro p hp
    simp only [splitCh, List.mem_singleton] at hp
    subst hp
    simp
  | cons c rest ih =>
    intro p hp
    simp only [splitCh] at hp
    by_cases h : c = sep
    · rw [if_pos h] at hp
      rcases List.mem_cons.mp hp with hp | hp
      · subst hp; simp
      · exact ih p hp
    · rw [if_neg h] at hp
      cases hr : splitCh sep rest with
      | nil => exact absurd hr (splitCh_ne_nil sep rest)
      | cons a t =>
        rw [hr] at hp
        rcases List.mem_cons.mp hp with hp | hp
        · subst hp
          intro hmem
          rcases List.mem_cons.mp hmem with hmem | hmem
          · exact h hmem.symm
          · exact ih a (by rw [hr]; exact List.mem_cons_self a t) hmem
        · exact ih p (by rw [hr]; exact List.mem_cons_of_mem a hp)

/-- Helper: splitting distributes over an occurrence of the separator. -/
theorem splitCh_append (sep : Char) (l1 l2 : List Char) :
    splitCh sep (l1 ++ sep :: l2) = splitCh sep l1 ++ splitCh sep l2 := by
  induction l1 with
  | nil => simp [splitCh]
  | cons c rest ih =>
    simp only [List.cons_append, splitCh, List.append_eq]
    rw [ih]
    by_cases h : c = sep
    · simp [h]
    · simp only [if_neg h]
      cases hr : splitCh sep rest with
      | nil => exact absurd hr (splitCh_ne_nil sep rest)
      | cons a t => simp

/-- Helper: splitting a separator-free list yields that list as the single
piece. -/
theorem splitCh_of_not_mem (sep : Char) (l : List Char) (h : sep ∉ l) :
    splitCh sep l = [l] := by
  induction l with
  | nil => rfl
  | cons c rest ih =>
    have hc : ¬c = sep := fun hc => h (by rw [hc]; exact List.mem_cons_self sep rest)
    have hrest : sep ∉ rest := fun hm => h (List.mem_cons_of_mem c hm)
    simp only [splitCh, if_neg hc, ih hrest]

/-- Helper: rebuilding a string from its character data. -/
theorem strMk_data (s : String) : String.mk s.data = s := rfl

/-- Helper: the character data of a string constructed from a list. -/
theorem data_mk (l : List Char) : String.data (String.mk l) = l := rfl

/-- Helper: splitting a ++ sep ++ b recovers a and b when both are free of
the separator. -/
theorem rsplit_append_sep (sep : Char) (sepStr a b : String)
    (hsep : sepStr.data = [sep]) (ha : sep ∉ a.data) (hb : sep ∉ b.data) :
    rsplit sep (a ++ sepStr ++ b) = [a, b] := by
  unfold rsplit
  have hdata : (a ++ sepStr ++ b).data = a.data ++ sep :: b.data := by
    rw [String.data_append, String.data_append, hsep, List.append_assoc]
    rfl
  rw [hdata, splitCh_append, splitCh_of_not_mem sep a.data ha,
    splitCh_of_not_mem sep b.data hb]
  simp [strMk_data]

/-- Helper: splitting a ++ sep ++ (b ++ sep ++ c) recovers the three
separator-free pieces. -/
theorem rsplit_append_sep3 (sep : Char) (sepStr a b c : String)
    (hsep : sepStr.data = [sep]) (ha : sep ∉ a.data) (hb : sep ∉ b.data)
    (hc : sep ∉ c.data) :
    rsplit sep (a ++ sepStr ++ (b ++ sepStr ++ c)) = [a, b, c] := by
  unfold rsplit
  have hdata : (a ++ sepStr ++ (b ++ sepStr ++ c)).data
      = a.data ++ sep :: (b.data ++ sep :: c.data) := by
    rw [String.data_append, String.data_append, String.data_append,
      String.data_append, hsep, List.append_assoc]
    simp [List.append_assoc]
  rw [hdata, splitCh_append, splitCh_append, splitCh_of_not_mem sep a.data ha,
    splitCh_of_not_mem sep b.data hb, splitCh_of_not_mem sep c.data hc]
  simp [strMk_data]

/-- Helper: the pieces of rsplit, as character lists. -/
theorem rsplit_data_eq (sep : Char) (s : String) (pieces : List String)
    (h : rsplit sep s = pieces) :
    splitCh sep s.data = pieces.map String.data := by
  have h2 := congrArg (List.map String.data) h
  rw [rsplit, List.map_map] at h2
  have h3 : (String.data ∘ fun l => String.mk l) = id := rfl
  rw [h3, List.map_id] at h2
  exact h2

/-- Claim C8: parsing a RateQuery succeeds exactly when the input splits on
"." into 3 or 4 segments (2 or fewer, or 5 or more, fail); the leading
segments are rejoined with "." and parsed as the level name (two leading
segments give the default-hierarchy form), and the final segment splits on
"," into the member-value list. -/
theorem rate_query_parse_characterization (s : String) :
    RateQuery.fromStr s =
      (match rsplit '.' s with
       | [a, b, v] => Except.ok ⟨⟨a, a, b⟩, rsplit ',' v⟩
       | [a, b, c, v] => Except.ok ⟨⟨a, b, c⟩, rsplit ',' v⟩
       | _ => Except.error "Malformatted RateQuery") := by
  rcases hs : rsplit '.' s with - | ⟨a, - | ⟨b, - | ⟨c, - | ⟨d, - | ⟨e, rest⟩⟩⟩⟩⟩
  · simp [RateQuery.fromStr, hs]
  · simp [RateQuery.fromStr, hs]
  · simp [RateQuery.fromStr, hs]
  · have hl := rsplit_data_eq '.' s [a, b, c] hs
    have ha : '.' ∉ a.data := by
      refine mem_splitCh_not_mem '.' s.data a.data ?_
      rw [hl]; simp
    have hb : '.' ∉ b.data := by
      refine mem_splitCh_not_mem '.' s.data b.data ?_
      rw [hl]; simp
    have hjoin : LevelName.fromStr (joinSep "." [a, b]) =
        Except.ok ⟨a, a, b⟩ := by
      have hj : joinSep "." [a, b] = a ++ "." ++ b := rfl
      rw [hj, LevelName.fromStr,
        rsplit_append_sep '.' "." a b rfl ha hb]
    simp [RateQuery.fromStr, hs, hjoin]
  · have hl := rsplit_data_eq '.' s [a, b, c, d] hs
    have ha : '.' ∉ a.data := by
      refine mem_splitCh_not_mem '.' s.data a.data ?_
      rw [hl]; simp
    have hb : '.' ∉ b.data := by
      refine mem_splitCh_not_mem '.' s.data b.data ?_
      rw [hl]; simp
    have hc : '.' ∉ c.data := by
      refine mem_splitCh_not_mem '.' s.data c.data ?_
      rw [hl]; simp
    have hjoin : LevelName.fromStr (joinSep "." [a, b, c]) =
        Except.ok ⟨a, b, c⟩ := by
      have hj : joinSep "." [a, b, c] = a ++ "." ++ (b ++ "." ++ c) := rfl
      rw [hj, LevelName.fromStr,
        rsplit_append_sep3 '.' "." a b c rfl ha hb hc]
    simp [RateQuery.fromStr, hs, hjoin]
  · have hcond : (a :: b :: c :: d :: e :: rest).length ≤ 2
        ∨ (a :: b :: c :: d :: e :: rest).length ≥ 5 := by
      simp
    simp only [RateQuery.fromStr, hs]
    rw [if_pos hcond]

/-- The full list of column aliases emitted across all drilldowns of a
compiled IR (the concatenation, in drilldown order, of each drilldown's
col_alias_only_vec). -/
def allColAliases (ir : QueryIr) : List String :=
  ir.drills.flatMap DrilldownSql.col_alias_only_vec

/-- The raw column names a drilldown's levels contribute: each level's key
column followed by its name column when present. -/
def drillCols (d : DrilldownSql) : List String :=
  d.level_columns.flatMap (fun l =>
    l.key_column
      :: (match l.name_column with
          | some name_col => [name_col]
          | none => []))

/-- Helper: suffixing every level column with the alias postfix. -/
theorem flatMap_suffix_eq (ap : String) (ls : List LevelColumn) :
    (ls.flatMap (fun l =>
      (l.key_column ++ "_" ++ ap)
        :: (match l.name_column with
            | some name_col => [name_col ++ "_" ++ ap]
            | none => [])))
    = (ls.flatMap (fun l =>
        l.key_column
          :: (match l.name_column with
              | some name_col => [name_col]
              | none => []))).map (fun c => c ++ "_" ++ ap) := by
  induction ls with
  | nil => rfl
  | cons l rest ih =>
    cases hn : l.name_column <;>
      simp [List.flatMap_cons, ih, hn]

/-- Helper: with no property columns, col_alias_only_vec is exactly the
level columns suffixed with "_" and the alias postfix. -/
theorem col_alias_only_eq_map (d : DrilldownSql) (h : d.property_columns = []) :
    DrilldownSql.col_alias_only_vec d
      = (drillCols d).map (fun c => c ++ "_" ++ DrilldownSql.alias_postfix d) := by
  unfold DrilldownSql.col_alias_only_vec drillCols
  rw [h]
  simp only [List.isEmpty_nil, if_true, List.append_nil]
  exact flatMap_suffix_eq ( DrilldownSql.alias_postfix d) d.level_columns

/-- Helper: a list ending in an underscore-free tail after an underscore
decomposes uniquely. -/
theorem sep_append_inj (c1 p1 c2 p2 : List Char) (h1 : '_' ∉ p1) (h2 : '_' ∉ p2)
    (heq : c1 ++ '_' :: p1 = c2 ++ '_' :: p2) : c1 = c2 ∧ p1 = p2 := by
  induction c1 generalizing c2 with
  | nil =>
    cases c2 with
    | nil =>
      simp only [List.nil_append] at heq
      exact ⟨rfl, (List.cons.injEq _ _ _ _ ▸ heq).2⟩
    | cons b bs =>
      simp only [List.nil_append, List.cons_append, List.cons.injEq] at heq
      exfalso
      apply h1
      rw [heq.2]
      exact List.mem_append_right bs (List.mem_cons_self '_' p2)
  | cons a as ih =>
    cases c2 with
    | nil =>
      simp only [List.nil_append, List.cons_append, List.cons.injEq] at heq
      exfalso
      apply h2
      rw [← heq.2]
      exact List.mem_append_right as (List.mem_cons_self '_' p1)
    | cons b bs =>
      simp only [List.cons_append, List.cons.injEq] at heq
      obtain ⟨hab, htail⟩ := heq
      obtain ⟨hcs, hps⟩ := ih bs htail
      exact ⟨by rw [hab, hcs], hps⟩

/-- Helper: an alias string determines its column and its underscore-free
postfix. -/
theorem alias_eq_parts (c1 c2 p1 p2 : String) (h1 : '_' ∉ p1.data)
    (h2 : '_' ∉ p2.data) (heq : c1 ++ "_" ++ p1 = c2 ++ "_" ++ p2) :
    c1 = c2 ∧ p1 = p2 := by
  have hd := congrArg String.data heq
  rw [String.data_append, String.data_append, String.data_append,
    String.data_append, List.append_assoc, List.append_assoc] at hd
  obtain ⟨hc, hp⟩ := sep_append_inj c1.data p1.data c2.data p2.data h1 h2 hd
  exact ⟨String.ext hc, String.ext hp⟩

/-- Two compiled-IR drilldowns with distinct alias postfixes that share a
property column name. -/
def collidingDrills : List DrilldownSql :=
  [⟨"0", ⟨"dim_a", none, none⟩, "id", "fk0", [⟨"id", none⟩], ["prop"], none⟩,
   ⟨"1", ⟨"dim_b", none, none⟩, "id", "fk1", [⟨"id", none⟩], ["prop"], none⟩]

/-- A compiled IR holding the two colliding drilldowns. -/
def collidingIr : QueryIr :=
  ⟨⟨"fact", none⟩, [], collidingDrills, [], [], [], none, none, none, none,
    none, none, none, false⟩

/-- Claim C7 counterexample: a QueryIr whose two drilldowns carry distinct
alias_postfix values ("0" and "1") yet whose emitted alias list contains a
duplicate, because property columns are emitted without the postfix and
both drilldowns carry the property column "prop". -/
theorem query_ir_alias_collision :
    ((QueryIr.drills collidingIr).map (fun d => DrilldownSql.alias_postfix d)).Nodup
    ∧ ¬ (allColAliases collidingIr).Nodup := by
  constructor
  · decide
  · decide

/-- Claim C7 (amended): for every QueryIr whose drilldowns carry pairwise
distinct and underscore-free alias_postfix values, have no property
columns, and emit pairwise distinct level column names within each
drilldown, the full list of column aliases across all drilldowns contains
no duplicates. -/
theorem query_ir_alias_uniqueness (ir : QueryIr)
    (hpost : ((QueryIr.drills ir).map (fun d => DrilldownSql.alias_postfix d)).Nodup)
    (hunder : ∀ d ∈ QueryIr.drills ir, '_' ∉ ( DrilldownSql.alias_postfix d).data)
    (hprops : ∀ d ∈ QueryIr.drills ir, d.property_columns = [])
    (hcols : ∀ d ∈ QueryIr.drills ir, (drillCols d).Nodup) :
    (allColAliases ir).Nodup := by
  rw [allColAliases, List.nodup_flatMap]
  constructor
  · intro d hd
    rw [col_alias_only_eq_map d (hprops d hd)]
    refine List.Nodup.map_on ?_ (hcols d hd)
    intro x hx y hy hxy
    have hdx := congrArg String.data hxy
    rw [String.data_append, String.data_append, String.data_append,
      String.data_append] at hdx
    have h1 := List.append_cancel_right hdx
    have h2 := List.append_cancel_right h1
    exact String.ext h2
  · have hp : List.Pairwise
        (fun d1 d2 => DrilldownSql.alias_postfix d1 ≠ DrilldownSql.alias_postfix d2)
        (QueryIr.drills ir) := List.pairwise_map.mp hpost
    refine List.Pairwise.imp_of_mem ?_ hp
    intro d1 d2 h1mem h2mem hne
    intro x hx1 hx2
    rw [col_alias_only_eq_map d1 (hprops d1 h1mem)] at hx1
    rw [col_alias_only_eq_map d2 (hprops d2 h2mem)] at hx2
    obtain ⟨c1, hc1, hxc1⟩ := List.mem_map.mp hx1
    obtain ⟨c2, hc2, hxc2⟩ := List.mem_map.mp hx2
    have heq : c1 ++ "_" ++ DrilldownSql.alias_postfix d1
        = c2 ++ "_" ++ DrilldownSql.alias_postfix d2 := by
      rw [hxc1, hxc2]
    exact hne (alias_eq_parts c1 c2 _ _ (hunder d1 h1mem) (hunder d2 h2mem) heq).2

/-- Claim C7 witness for the amended statement: a two-drilldown IR with
postfixes "0" and "1", no properties, and distinct level columns has a
duplicate-free alias list. -/
theorem query_ir_alias_uniqueness_witness :
    (allColAliases
      ⟨⟨"fact", none⟩, [],
        [⟨"0", ⟨"dim_a", none, none⟩, "id", "fk0", [⟨"id", some "nm"⟩], [], none⟩,
         ⟨"1", ⟨"dim_b", none, none⟩, "id", "fk1", [⟨"id", none⟩], [], none⟩],
        [], [], [], none, none, none, none, none, none, none, false⟩).Nodup :=
  query_ir_alias_uniqueness _ (by decide) (by decide) (by decide) (by decide)
